import Mathlib

/-!
Verification development for the pbinfo scraping client.

The Go sources are embedded shallowly:

* machine integers become Int (with the int64 clamping Go's strconv performs
  made explicit where the source relies on it);
* the parsed HTML tree of the x/net/html package becomes the inductive HNode;
* cascadia selectors are pure predicates on nodes; the library's MatchFirst
  and MatchAll walk the subtree in document (pre-)order, which is modelled by
  a pre-order enumeration of the value tree.  Selectors that use sibling or
  child combinators cannot be expressed as a predicate on a parentless value
  node, so such selectors are taken as parameters of the embedded operations;
  purely node-local selectors (tag name, attribute) are defined concretely;
* HTTP fetches become Except-valued inputs: a page download is an
  Except String HNode, a raw chunk download is an oracle
  String -> Except String String keyed by the link target;
* the concurrent errgroup fan-out is modelled by a sequential fold over the
  queued downloads: every task writes to its own pre-assigned slot, and a
  failing task makes the whole group fail (the model reports the first
  failing download in queue order; the claims only depend on whether some
  download failed, not on which error wins the race);
* stateful visitor closures become state-passing functions
  sigma -> node -> sigma x Bool.
-/

/-! ## Models of the Go standard library string helpers -/

/-- Model of the whitespace class used by strings.TrimSpace, restricted to the
ASCII whitespace characters (space, tab, newline, vertical tab, form feed,
carriage return). -/
def isSpaceChar (c : Char) : Bool :=
  c = ' ' || c = '\t' || c = '\n' || c = Char.ofNat 11 || c = Char.ofNat 12 || c = '\r'

/-- Model of strings.TrimSpace: drop leading and trailing whitespace. -/
def trimSpace (s : String) : String :=
  ⟨((s.data.dropWhile isSpaceChar).reverse.dropWhile isSpaceChar).reverse⟩

def splitCharAux (sep : Char) : List Char → List Char → List String
  | [], acc => [⟨acc.reverse⟩]
  | c :: rest, acc =>
    if c = sep then ⟨acc.reverse⟩ :: splitCharAux sep rest []
    else splitCharAux sep rest (c :: acc)

/-- Model of strings.Split with a one-character separator: the list of
fields between occurrences of the separator (an empty string yields one
empty field, like the Go function). -/
def splitChar (sep : Char) (s : String) : List String :=
  splitCharAux sep s.data []

/-- Model of strings.ToLower restricted to the alphabet this client
distinguishes: ASCII letters plus the Romanian uppercase diacritics that the
difficulty normalizer later folds.  Other characters are returned unchanged. -/
def goToLowerChar (c : Char) : Char :=
  if 'A' ≤ c ∧ c ≤ 'Z' then Char.ofNat (c.toNat + 32)
  else if c = 'Ă' then 'ă'
  else if c = 'Â' then 'â'
  else if c = 'Î' then 'î'
  else if c = 'Ș' then 'ș'
  else if c = 'Ț' then 'ț'
  else c

def goToLower (s : String) : String := ⟨s.data.map goToLowerChar⟩

/-- The replacement performed by the package-level asciiReplacer
(strings.NewReplacer with the five lowercase diacritic pairs); since every
pair is a single character, the replacer is a character-wise map. -/
def asciiReplaceChar (c : Char) : Char :=
  if c = 'ă' then 'a'
  else if c = 'â' then 'a'
  else if c = 'î' then 'i'
  else if c = 'ș' then 's'
  else if c = 'ț' then 't'
  else c

def asciiReplace (s : String) : String := ⟨s.data.map asciiReplaceChar⟩

def digitsToNat (l : List Char) : Nat :=
  l.foldl (fun acc c => acc * 10 + (c.toNat - 48)) 0

def maxInt64 : Int := 9223372036854775807

def minInt64 : Int := -9223372036854775808

/-- Model of strconv.Atoi: the parsed value together with a success flag.
A syntax error yields value 0; an out-of-range value is clamped to the int64
bounds, exactly like the pair a Go caller receives when discarding the error. -/
def goAtoi (s : String) : Int × Bool :=
  let signAndDigits : Bool × List Char :=
    match s.data with
    | '-' :: rest => (true, rest)
    | '+' :: rest => (false, rest)
    | l => (false, l)
  let neg := signAndDigits.1
  let l := signAndDigits.2
  if l = [] then (0, false)
  else if l.all Char.isDigit then
    let v : Int := if neg then -(digitsToNat l : Int) else (digitsToNat l : Int)
    if v > maxInt64 then (maxInt64, false)
    else if v < minInt64 then (minInt64, false)
    else (v, true)
  else (0, false)

/-- Model of strconv.ParseFloat for the plain decimal forms the scraped pages
use (optional sign, digits, optional fractional part); the value is kept as an
exact rational.  Exponent, hexadecimal and infinity forms are not modelled. -/
def goParseFloat (s : String) : Option ℚ :=
  let signAndRest : ℚ × List Char :=
    match s.data with
    | '-' :: rest => (-1, rest)
    | '+' :: rest => (1, rest)
    | l => (1, l)
  let sign := signAndRest.1
  let l := signAndRest.2
  let ip := l.takeWhile Char.isDigit
  let rest := l.drop ip.length
  match rest with
  | [] => if ip = [] then none else some (sign * (digitsToNat ip : ℚ))
  | '.' :: fp =>
    if fp.all Char.isDigit ∧ (ip ≠ [] ∨ fp ≠ []) then
      some (sign * ((digitsToNat ip : ℚ) + (digitsToNat fp : ℚ) / ((10 : ℚ) ^ fp.length)))
    else none
  | _ => none

/-- Conversion of a rational to an integer by truncation toward zero, the way
a Go float64-to-int64 conversion behaves. -/
def goTrunc (q : ℚ) : Int := if 0 ≤ q then ⌊q⌋ else ⌈q⌉

/-! ## The parsed HTML tree (x/net/html) -/

inductive NodeType where
  | errorNode
  | textNode
  | documentNode
  | elementNode
  | commentNode
  | doctypeNode
deriving DecidableEq, Repr

structure HAttr where
  key : String
  val : String
deriving DecidableEq, Repr

/-- A parsed HTML node: its type, its data (text content for text nodes, tag
name for element nodes), its attributes and its children in document order. -/
inductive HNode where
  | mk (kind : NodeType) (data : String) (attrs : List HAttr) (children : List HNode)

def HNode.kind : HNode → NodeType
  | .mk k _ _ _ => k

def HNode.data : HNode → String
  | .mk _ d _ _ => d

def HNode.attrs : HNode → List HAttr
  | .mk _ _ a _ => a

def HNode.children : HNode → List HNode
  | .mk _ _ _ cs => cs

mutual

def HNode.size : HNode → Nat
  | .mk _ _ _ cs => 1 + HNode.sizeList cs

def HNode.sizeList : List HNode → Nat
  | [] => 0
  | n :: ns => HNode.size n + HNode.sizeList ns

end

mutual

/-- The nodes of a subtree in pre-order document order: a node first, then the
subtrees of its children from left to right. -/
def HNode.preorder : HNode → List HNode
  | .mk k d a cs => .mk k d a cs :: HNode.preorderList cs

def HNode.preorderList : List HNode → List HNode
  | [] => []
  | n :: ns => HNode.preorder n ++ HNode.preorderList ns

end

theorem HNode.size_def (n : HNode) : n.size = 1 + HNode.sizeList n.children := by
  cases n
  rfl

theorem HNode.preorder_def (n : HNode) :
    n.preorder = n :: HNode.preorderList n.children := by
  cases n
  rfl

theorem HNode.sizeList_append (a b : List HNode) :
    HNode.sizeList (a ++ b) = HNode.sizeList a + HNode.sizeList b := by
  induction a with
  | nil => simp [HNode.sizeList]
  | cons n ns ih =>
    show HNode.size n + HNode.sizeList (ns ++ b) = HNode.size n + HNode.sizeList ns + HNode.sizeList b
    rw [ih]
    omega

theorem HNode.preorderList_append (a b : List HNode) :
    HNode.preorderList (a ++ b) = HNode.preorderList a ++ HNode.preorderList b := by
  induction a with
  | nil => rfl
  | cons n ns ih =>
    show HNode.preorder n ++ HNode.preorderList (ns ++ b) = _
    rw [ih]
    simp [HNode.preorderList]

mutual

theorem HNode.preorder_length : ∀ (n : HNode), n.preorder.length = n.size
  | .mk k d a cs => by
    simp [HNode.preorder, HNode.size, HNode.preorderList_length cs]
    omega

theorem HNode.preorderList_length :
    ∀ (l : List HNode), (HNode.preorderList l).length = HNode.sizeList l
  | [] => rfl
  | n :: ns => by
    simp [HNode.preorderList, HNode.sizeList, HNode.preorder_length n,
      HNode.preorderList_length ns]

end

/-! ## traverse.Depth -/

/-- The loop of traverse.Depth on an explicit stack of pending subtrees.  The
visitor is a Go closure, modelled as a state-passing function; the result is
its final state together with the sequence of visited nodes (the node whose
visit returned false is the last visited one).  Popping the top of the Go
slice-stack and pushing the children from the last to the first is the same as
taking the head of the list and prepending the children in order. -/
def depthRun {σ : Type} (v : σ → HNode → σ × Bool) : σ → List HNode → σ × List HNode
  | s, [] => (s, [])
  | s, n :: stack =>
    let r := v s n
    if r.2 then
      let q := depthRun v r.1 (n.children ++ stack)
      (q.1, n :: q.2)
    else (r.1, [n])
termination_by _ l => HNode.sizeList l
decreasing_by
  simp only [HNode.sizeList_append, HNode.sizeList, HNode.size_def]
  omega

/-- traverse.Depth: depth-first traversal starting from the given root with a
stack initialized to the root alone. -/
def traverse.Depth {σ : Type} (root : HNode) (visitor : σ → HNode → σ × Bool) (s : σ) :
    σ × List HNode :=
  depthRun visitor s [root]

/-- Running a visitor down a fixed list of nodes, stopping right after the
first visit that returns false.  This is the specification device the
traversal is compared against. -/
def runVisitor {σ : Type} (v : σ → HNode → σ × Bool) : σ → List HNode → σ × List HNode
  | s, [] => (s, [])
  | s, n :: ns =>
    let r := v s n
    if r.2 then
      let q := runVisitor v r.1 ns
      (q.1, n :: q.2)
    else (r.1, [n])

theorem depthRun_eq_runVisitor {σ : Type} (v : σ → HNode → σ × Bool)
    (s : σ) (stack : List HNode) :
    depthRun v s stack = runVisitor v s (HNode.preorderList stack) := by
  have H : ∀ (N : Nat) (s : σ) (stack : List HNode), HNode.sizeList stack ≤ N →
      depthRun v s stack = runVisitor v s (HNode.preorderList stack) := by
    intro N
    induction N with
    | zero =>
      intro s stack h
      cases stack with
      | nil => rw [depthRun.eq_1]; rfl
      | cons n rest =>
        exfalso
        have hs := HNode.size_def n
        simp [HNode.sizeList] at h
        omega
    | succ N ih =>
      intro s stack h
      cases stack with
      | nil => rw [depthRun.eq_1]; rfl
      | cons n rest =>
        rw [depthRun.eq_2]
        have hpl : HNode.preorderList (n :: rest) =
            n :: (HNode.preorderList n.children ++ HNode.preorderList rest) := by
          show HNode.preorder n ++ HNode.preorderList rest = _
          rw [HNode.preorder_def]
          simp
        rw [hpl]
        have hsz : HNode.sizeList (n.children ++ rest) ≤ N := by
          have hs := HNode.size_def n
          simp [HNode.sizeList_append, HNode.sizeList] at h ⊢
          omega
        have ih' := ih (v s n).1 (n.children ++ rest) hsz
        rw [HNode.preorderList_append] at ih'
        by_cases hv : (v s n).2 = true
        · simp only [hv, if_true, runVisitor, ih']
        · simp only [hv, if_false, Bool.false_eq_true, runVisitor]
  exact H (HNode.sizeList stack) s stack le_rfl

theorem Depth_eq_runVisitor {σ : Type} (root : HNode) (v : σ → HNode → σ × Bool) (s : σ) :
    traverse.Depth root v s = runVisitor v s root.preorder := by
  have h := depthRun_eq_runVisitor v s [root]
  have hpl : HNode.preorderList [root] = root.preorder := by
    show root.preorder ++ HNode.preorderList [] = root.preorder
    simp [HNode.preorderList]
  rw [traverse.Depth, h, hpl]

theorem runVisitor_take {σ : Type} (v : σ → HNode → σ × Bool) :
    ∀ (s : σ) (l : List HNode), ∃ k, (runVisitor v s l).2 = l.take k := by
  intro s l
  induction l generalizing s with
  | nil => exact ⟨0, rfl⟩
  | cons n ns ih =>
    by_cases hv : (v s n).2 = true
    · obtain ⟨k, hk⟩ := ih (v s n).1
      refine ⟨k + 1, ?_⟩
      simp only [runVisitor, hv, if_true, List.take_succ_cons, hk]
    · refine ⟨1, ?_⟩
      simp only [runVisitor, hv, if_false, Bool.false_eq_true, List.take_succ_cons,
        List.take_zero]

theorem runVisitor_constTrue {σ : Type} (f : σ → HNode → σ) :
    ∀ (s : σ) (l : List HNode), (runVisitor (fun s n => (f s n, true)) s l).2 = l := by
  intro s l
  induction l generalizing s with
  | nil => rfl
  | cons n ns ih => simp only [runVisitor, if_true, ih]

/-! ## cascadia selector matching

A selector is modelled as a predicate on nodes; MatchFirst and MatchAll test
the given node and its whole subtree in document order, exactly the recursion
the cascadia library performs. -/

def matchFirst (sel : HNode → Bool) (n : HNode) : Option HNode :=
  n.preorder.find? sel

def matchAll (sel : HNode → Bool) (n : HNode) : List HNode :=
  n.preorder.filter sel

/-! ## pbinfo text helpers -/

/-- dashToEmpty from the client: a literal dash is the site's marker for
"not specified" and is normalized to the empty string. -/
def dashToEmpty (text : String) : String :=
  if text = "-" then "" else text

/-- The visitor closure inside the text helper: the string builder is the
state.  As in the source, a node contributes the trimmed node data exactly
when its type is NOT TextNode, and traversal always continues. -/
def textVisitor (sb : String) (n : HNode) : String × Bool :=
  (if n.kind ≠ NodeType.textNode then
      (if trimSpace n.data ≠ "" then sb ++ trimSpace n.data else sb)
    else sb,
   true)

/-- The text helper of the client: runs the builder visitor over the subtree
with traverse.Depth and returns the built string. -/
def text (n : HNode) : String :=
  (traverse.Depth n textVisitor "").1

theorem text_eq_runVisitor (n : HNode) :
    text n = (runVisitor textVisitor "" n.preorder).1 := by
  rw [text, Depth_eq_runVisitor]

def attrLookup : List HAttr → String → String
  | [], _ => ""
  | a :: rest, key => if a.key = key then a.val else attrLookup rest key

/-- childText: the text of the first node of the subtree matched by the child
selector, or the empty string when nothing matches. -/
def childText (n : HNode) (childSelector : HNode → Bool) : String :=
  match matchFirst childSelector n with
  | none => ""
  | some child => text child

/-- childAttr: the value of the named attribute on the first node matched by
the child selector, or the empty string. -/
def childAttr (n : HNode) (childSelector : HNode → Bool) (attr : String) : String :=
  match matchFirst childSelector n with
  | none => ""
  | some child => attrLookup child.attrs attr

/-! ## ProblemDifficulty -/

inductive ProblemDifficulty where
  | Unknown
  | Easy
  | Medium
  | Difficult
  | Contest
deriving DecidableEq, Repr

def difficultyEasyString : String := "easy"
def difficultyMediumString : String := "medium"
def difficultyDifficultString : String := "difficult"
def difficultyContestString : String := "contest"
def difficultyUnknownString : String := "unknown"

def ProblemDifficulty.String : ProblemDifficulty → String
  | .Easy => difficultyEasyString
  | .Medium => difficultyMediumString
  | .Difficult => difficultyDifficultString
  | .Contest => difficultyContestString
  | .Unknown => difficultyUnknownString

/-- ParseProblemDifficulty: lowercase the input, fold the diacritics, then
compare against the recognized values; anything unrecognized is Unknown. -/
def ParseProblemDifficulty (input : String) : ProblemDifficulty :=
  let s := asciiReplace (goToLower input)
  if s = difficultyEasyString ∨ s = "usoara" ∨ s = "usor" then .Easy
  else if s = difficultyMediumString ∨ s = "medie" ∨ s = "mediu" then .Medium
  else if s = difficultyDifficultString ∨ s = "dificila" ∨ s = "dificil" then .Difficult
  else if s = difficultyContestString ∨ s = "concurs" then .Contest
  else .Unknown

/-- The synonym table of ParseProblemDifficulty: the canonical English names
and the Romanian synonyms in their diacritic-folded lowercase form, paired
with the difficulty each one maps to. -/
def difficultySynonyms : List (String × ProblemDifficulty) :=
  [("easy", .Easy), ("usoara", .Easy), ("usor", .Easy),
   ("medium", .Medium), ("medie", .Medium), ("mediu", .Medium),
   ("difficult", .Difficult), ("dificila", .Difficult), ("dificil", .Difficult),
   ("contest", .Contest), ("concurs", .Contest)]

/-! ## Problem and the field parser table -/

/-- Problem, with the optional score kept as an Option so that absence stays
distinguishable from a present zero, and the duration / byte counts as
integers (nanoseconds and bytes). -/
structure Problem where
  ID : Int
  Name : String
  Publisher : String
  Grade : Int
  Input : String
  Output : String
  MaxTime : Int
  MaxMemoryBytes : Int
  MaxStackBytes : Int
  Source : String
  Authors : List String
  Difficulty : ProblemDifficulty
  Score : Option Int
deriving DecidableEq, Repr

/-- The Go literal Problem{ID: id}: every field at its zero value except the
caller-supplied identifier. -/
def newProblem (id : Int) : Problem :=
  { ID := id, Name := "", Publisher := "", Grade := 0, Input := "", Output := "",
    MaxTime := 0, MaxMemoryBytes := 0, MaxStackBytes := 0, Source := "",
    Authors := [], Difficulty := .Unknown, Score := none }

/-- The span selector (a node-local selector, defined concretely). -/
def selectorSpan : HNode → Bool :=
  fun n => decide (n.kind = NodeType.elementNode ∧ n.data = "span")

def selectorTotalMemory : HNode → Bool :=
  fun n => decide (n.kind = NodeType.elementNode ∧ n.data = "span" ∧
    attrLookup n.attrs "title" = "Memorie totală")

def selectorStackDimension : HNode → Bool :=
  fun n => decide (n.kind = NodeType.elementNode ∧ n.data = "span" ∧
    attrLookup n.attrs "title" = "Dimensiunea stivei")

/-- Modelled from the spec: the human-readable size parser
(units.FromHumanSize of the external docker/go-units dependency, whose source
is not part of this repository).  Per the spec it parses strings such as
"64 MB" into a byte count using decimal multipliers (powers of 1000, not
1024) and fails on anything it cannot parse.  The accepted shape is a digit
run, an optional single space, an optional multiplier letter k/m/g/t/p in
either case and an optional trailing b/B. -/
def sizeMultiplier (c : Char) : Option Int :=
  if c = 'k' ∨ c = 'K' then some 1000
  else if c = 'm' ∨ c = 'M' then some 1000000
  else if c = 'g' ∨ c = 'G' then some 1000000000
  else if c = 't' ∨ c = 'T' then some 1000000000000
  else if c = 'p' ∨ c = 'P' then some 1000000000000000
  else none

/-- Modelled from the spec: see sizeMultiplier. -/
def parseHumanSize (s : String) : Option Int :=
  let l := s.data
  let num := l.takeWhile Char.isDigit
  if num = [] then none
  else
    let rest := l.drop num.length
    let rest := match rest with
      | ' ' :: r => r
      | r => r
    match rest with
    | [] => some (digitsToNat num : Int)
    | [c] =>
      if c = 'b' ∨ c = 'B' then some (digitsToNat num : Int)
      else (sizeMultiplier c).map (· * (digitsToNat num : Int))
    | [c, b] =>
      if b = 'b' ∨ b = 'B' then (sizeMultiplier c).map (· * (digitsToNat num : Int))
      else none
    | _ => none

/-- parseMemoryLimit: write the parsed size into the output slot only when
parsing succeeds; the caller's previous value survives a failure. -/
def parseMemoryLimit (input : String) (output : Int) : Int :=
  match parseHumanSize input with
  | some mem => mem
  | none => output

def parser0 (n : HNode) (p : Problem) : Problem :=
  { p with Publisher := childText n selectorSpan }

def parser1 (n : HNode) (p : Problem) : Problem :=
  { p with Grade := (goAtoi (dashToEmpty (text n))).1 }

def parser2 (n : HNode) (p : Problem) : Problem :=
  let inout := splitChar '/' (childText n selectorSpan)
  match inout with
  | [a, b] =>
    let inp := trimSpace a
    let out := trimSpace b
    if inp = "tastatură" ∨ out = "ecran" then { p with Input := "-" }
    else { p with Input := inp, Output := out }
  | _ => { p with Input := "-" }

def parser3 (n : HNode) (p : Problem) : Problem :=
  let split := splitChar ' ' (dashToEmpty (text n))
  match split with
  | [] => p
  | s0 :: _ =>
    match goParseFloat s0 with
    | none => p
    | some rawTime => { p with MaxTime := goTrunc (rawTime * 1000000000) }

def parser4 (n : HNode) (p : Problem) : Problem :=
  { p with
    MaxMemoryBytes := parseMemoryLimit (childText n selectorTotalMemory) p.MaxMemoryBytes,
    MaxStackBytes := parseMemoryLimit (childText n selectorStackDimension) p.MaxStackBytes }

def parser5 (n : HNode) (p : Problem) : Problem :=
  if dashToEmpty (text n) ≠ "" then { p with Source := dashToEmpty (text n) } else p

def parser6 (n : HNode) (p : Problem) : Problem :=
  let t := dashToEmpty (text n)
  if t = "" then p
  else { p with Authors := (splitChar ',' t).map trimSpace }

def parser7 (n : HNode) (p : Problem) : Problem :=
  { p with Difficulty := ParseProblemDifficulty (dashToEmpty (text n)) }

def parser8 (n : HNode) (p : Problem) : Problem :=
  let t := dashToEmpty (text n)
  if t = "" then p
  else { p with Score := some (goAtoi t).1 }

/-- The positional parser table: entry i handles metadata column i.  Indices
outside the table never occur because FindProblemByID checks the column count
first; they are mapped to the identity. -/
def parsers (i : Nat) : HNode → Problem → Problem :=
  match i with
  | 0 => parser0
  | 1 => parser1
  | 2 => parser2
  | 3 => parser3
  | 4 => parser4
  | 5 => parser5
  | 6 => parser6
  | 7 => parser7
  | 8 => parser8
  | _ => fun _ p => p

/-- The column loop of FindProblemByID: cell i is handed to parser i. -/
def applyParsers (cols : List HNode) (p : Problem) : Problem :=
  cols.enum.foldl (fun p ic => parsers ic.1 ic.2 p) p

/-- FindProblemByID.  The page download is an Except-valued input (requestHTML
result); the three structural selectors use sibling or child combinators and
are therefore parameters, see the module comment. -/
def FindProblemByID (tableSel columnSel titleSel : HNode → Bool)
    (page : Except String HNode) (id : Int) : Except String Problem :=
  match page with
  | .error e => .error ("pbinfo: " ++ e)
  | .ok root =>
    match matchFirst tableSel root with
    | none =>
      .error ("pbinfo: FindProblemByID failed to find info table for problem " ++
        toString id ++ ": HTML changed?")
    | some table =>
      let columns := matchAll columnSel table
      if columns.length < 8 ∨ columns.length > 9 then
        .error ("pbinfo: FindProblemByID failed to find info columns for problem " ++
          toString id ++ ": HTML changed?")
      else
        let p := applyParsers columns (newProblem id)
        match matchFirst titleSel root with
        | none =>
          .error ("pbinfo: FindProblemByID failed to find title for problem " ++
            toString id ++ ": HTML changed?")
        | some title => .ok { p with Name := text title }

/-! ## Test case retrieval -/

/-- TestCase: the content slots are Options, mirroring the nil-able byte
slices of the source (none is a Go nil slice; the completeness check of
Phase A tests exactly for nil). -/
structure TestCase where
  Input : Option String
  Output : Option String
  IsExample : Bool
  Score : Int
deriving DecidableEq, Repr

def emptyTestCase : TestCase :=
  { Input := none, Output := none, IsExample := false, Score := 0 }

/-- A queued external download: the row it belongs to, the link target, and
whether it is the input side (column 2) or the expected-output side. -/
structure UrlRef where
  index : Nat
  href : String
  input : Bool
deriving DecidableEq, Repr

def selectorTableColumn : HNode → Bool :=
  fun n => decide (n.kind = NodeType.elementNode ∧ n.data = "td")

def selectorTextArea : HNode → Bool :=
  fun n => decide (n.kind = NodeType.elementNode ∧ n.data = "textarea")

def selectorAnchor : HNode → Bool :=
  fun n => decide (n.kind = NodeType.elementNode ∧ n.data = "a")

/-- The switch over the cell index inside a listing row: column 1 is the
score, columns 2 and 3 carry inline content or queue a download, column 4
flags a public example. -/
def processColumn (index : Nat) (acc : TestCase × List UrlRef) (ic : Nat × HNode) :
    TestCase × List UrlRef :=
  let t := acc.1
  let urls := acc.2
  let i := ic.1
  let col := ic.2
  if i = 1 then ({ t with Score := (goAtoi (text col)).1 }, urls)
  else if i = 2 ∨ i = 3 then
    let content := childText col selectorTextArea
    if content = "" then
      (t, urls ++ [{ index := index, href := childAttr col selectorAnchor "href",
                     input := i == 2 }])
    else if i = 2 then ({ t with Input := some content }, urls)
    else ({ t with Output := some content }, urls)
  else if i = 4 then
    (if dashToEmpty (text col) = "da" then { t with IsExample := true } else t, urls)
  else (t, urls)

/-- One listing row: a fresh zero TestCase filled by the cell switch, plus the
downloads the row queued. -/
def processRow (index : Nat) (row : HNode) : TestCase × List UrlRef :=
  ((matchAll selectorTableColumn row).enum).foldl (processColumn index) (emptyTestCase, [])

/-- The row loop: each row appends one TestCase, so a row's pre-assigned index
is its ordinal among the rows; queued downloads accumulate across rows. -/
def buildRows (rows : List HNode) : List TestCase × List UrlRef :=
  rows.enum.foldl
    (fun acc ir =>
      let r := processRow ir.1 ir.2
      (acc.1 ++ [r.1], acc.2 ++ r.2))
    ([], [])

/-- One completed download written into its pre-assigned slot, on the side
recorded when it was queued. -/
def setCaseData (tcs : List TestCase) (u : UrlRef) (data : String) : List TestCase :=
  tcs.set u.index
    (if u.input then { tcs.getD u.index emptyTestCase with Input := some data }
     else { tcs.getD u.index emptyTestCase with Output := some data })

/-- The errgroup fan-out (see the module comment): every queued download runs;
a failure fails the whole group, otherwise each result is written to its own
slot. -/
def applyFetches (fetch : String → Except String String) :
    List TestCase → List UrlRef → Except String (List TestCase)
  | tcs, [] => .ok tcs
  | tcs, u :: us =>
    match fetch u.href with
    | .error e => .error ("request failed: " ++ e)
    | .ok data => applyFetches fetch (setCaseData tcs u data) us

/-- Phase A, getProblemFullTestCases: parse the listing rows, bail out as
empty-no-error when there are no rows at all, run the downloads, and discard
the whole phase as empty-no-error when any row still misses a side. -/
def getProblemFullTestCases (rowSel : HNode → Bool) (listing : Except String HNode)
    (fetch : String → Except String String) (problemID : Int) :
    Except String (List TestCase) :=
  match listing with
  | .error e => .error e
  | .ok root =>
    let tu := buildRows (matchAll rowSel root)
    if tu.1.length = 0 then .ok []
    else
      match applyFetches fetch tu.1 tu.2 with
      | .error e =>
        .error ("failed to retrieve test cases for problem with ID " ++
          toString problemID ++ ": " ++ e)
      | .ok tcs =>
        if tcs.any (fun t => t.Input.isNone || t.Output.isNone) then .ok []
        else .ok tcs

/-- The even/odd pairing of Phase B: position 2i is an input, position 2i+1
its expected output, every pair flagged as example with zero score. -/
def mkExamplePairs : List String → List TestCase
  | a :: b :: rest =>
    { Input := some a, Output := some b, IsExample := true, Score := 0 } ::
      mkExamplePairs rest
  | _ => []

/-- Phase B, getProblemExampleTestCases: the texts of the matched example
blocks, paired; an odd count is a hard structural error. -/
def getProblemExampleTestCases (exampleSel : HNode → Bool)
    (page : Except String HNode) (problemID : Int) : Except String (List TestCase) :=
  match page with
  | .error e => .error e
  | .ok root =>
    let examplesContent := (matchAll exampleSel root).map text
    if examplesContent.length % 2 ≠ 0 then
      .error ("failed to retrieve examples for problem with ID " ++
        toString problemID ++ ": incomplete data")
    else .ok (mkExamplePairs examplesContent)

/-- GetProblemTestCases: Phase A first; its hard error is returned at once,
its non-empty result is returned as is, and only the empty-no-error outcome
falls back to Phase B, whose result (cases or error) is then returned. -/
def GetProblemTestCases (rowSel exampleSel : HNode → Bool)
    (listing page : Except String HNode) (fetch : String → Except String String)
    (problemID : Int) : Except String (List TestCase) :=
  match getProblemFullTestCases rowSel listing fetch problemID with
  | .error e => .error ("pbinfo: " ++ e)
  | .ok cases =>
    if cases.length ≠ 0 then .ok cases
    else
      match getProblemExampleTestCases exampleSel page problemID with
      | .error e => .error ("pbinfo: " ++ e)
      | .ok cs => .ok cs

/-! ## Supporting lemmas -/

theorem parsers_ID (i : Nat) (n : HNode) (p : Problem) : (parsers i n p).ID = p.ID := by
  unfold parsers
  split
  · rfl
  · rfl
  · unfold parser2
    dsimp only
    split
    · split <;> rfl
    · rfl
  · unfold parser3
    dsimp only
    split
    · rfl
    · split <;> rfl
  · rfl
  · unfold parser5
    split <;> rfl
  · unfold parser6
    dsimp only
    split <;> rfl
  · rfl
  · unfold parser8
    dsimp only
    split <;> rfl
  · rfl

theorem applyParsers_ID (cols : List HNode) (p : Problem) :
    (applyParsers cols p).ID = p.ID := by
  unfold applyParsers
  generalize cols.enum = l
  induction l generalizing p with
  | nil => rfl
  | cons ic rest ih =>
    simp only [List.foldl_cons]
    rw [ih, parsers_ID]

theorem mkExamplePairs_complete (l : List String) :
    ∀ t ∈ mkExamplePairs l, t.Input ≠ none ∧ t.Output ≠ none := by
  induction l using mkExamplePairs.induct with
  | case1 a b rest ih =>
    intro t ht
    rw [mkExamplePairs] at ht
    rcases List.mem_cons.mp ht with h | h
    · subst h
      exact ⟨Option.some_ne_none a, Option.some_ne_none b⟩
    · exact ih t h
  | case2 l h1 =>
    intro t ht
    rw [mkExamplePairs.eq_2] at ht
    · exact absurd ht (List.not_mem_nil t)
    · exact h1

theorem getProblemExampleTestCases_complete (exampleSel : HNode → Bool)
    (page : Except String HNode) (problemID : Int) (l : List TestCase)
    (h : getProblemExampleTestCases exampleSel page problemID = .ok l) :
    ∀ t ∈ l, t.Input ≠ none ∧ t.Output ≠ none := by
  unfold getProblemExampleTestCases at h
  cases page with
  | error e => exact absurd h (by simp)
  | ok root =>
    simp only at h
    split at h
    · exact absurd h (by simp)
    · rw [Except.ok.injEq] at h
      subst h
      exact mkExamplePairs_complete _

theorem getProblemFullTestCases_ok_sound (rowSel : HNode → Bool)
    (listing : Except String HNode) (fetch : String → Except String String)
    (problemID : Int) (l : List TestCase)
    (h : getProblemFullTestCases rowSel listing fetch problemID = .ok l) :
    l = [] ∨ ∀ t ∈ l, t.Input ≠ none ∧ t.Output ≠ none := by
  unfold getProblemFullTestCases at h
  cases listing with
  | error e => exact absurd h (by simp)
  | ok root =>
    simp only at h
    split at h
    · rw [Except.ok.injEq] at h
      exact Or.inl h.symm
    · split at h
      · exact absurd h (by simp)
      · rename_i tcs heq
        split at h
        · rw [Except.ok.injEq] at h
          exact Or.inl h.symm
        · rename_i hany
          rw [Except.ok.injEq] at h
          subst h
          refine Or.inr fun t ht => ?_
          rw [List.any_eq_true] at hany
          push_neg at hany
          have := hany t ht
          simp only [Bool.or_eq_true, Option.isNone_iff_eq_none, not_or] at this
          simpa using this

/-! ## Claim theorems -/

/-- C10: parsing round-trips the canonical string representation: for every
difficulty value d, ParseProblemDifficulty applied to its String form returns
d again. -/
theorem ParseProblemDifficulty_roundTrip :
    ∀ d : ProblemDifficulty, ParseProblemDifficulty (ProblemDifficulty.String d) = d := by
  intro d
  cases d <;> decide

/-- C8: the human-size parser uses decimal multipliers, so "64 MB" is
64000000 bytes and "256 MB" is 256000000 bytes, and any parse failure leaves
the caller's output slot unchanged with no error propagated (parseMemoryLimit
is a total function into the slot's type). -/
theorem parseMemoryLimit_decimalMultipliers :
    parseMemoryLimit "64 MB" 0 = 64000000 ∧
    parseMemoryLimit "256 MB" 0 = 256000000 ∧
    (∀ s prev, parseHumanSize s = none → parseMemoryLimit s prev = prev) := by
  refine ⟨by decide, by decide, ?_⟩
  intro s prev h
  unfold parseMemoryLimit
  rw [h]

theorem parseMemoryLimit_decimalMultipliers_witness :
    parseHumanSize "no limit" = none ∧ parseMemoryLimit "no limit" 5 = 5 :=
  ⟨by decide, parseMemoryLimit_decimalMultipliers.2.2 "no limit" 5 (by decide)⟩

/-- The title element of the repository's own FindProblemByID fixture: an
anchor element whose only child is the text node NrApPrime. -/
def titleFixture : HNode :=
  .mk .elementNode "a" [] [.mk .textNode "NrApPrime" [] []]

/-- C4: the text helper evaluated at the failing input.  The claim (and the
repository's own test, which expects the problem name NrApPrime) requires the
concatenated contents of the text nodes; the code's visitor appends the
trimmed data of exactly the nodes that are NOT text nodes, so on the title
fixture it returns the tag name of the anchor element instead of the title
text. -/
theorem text_on_titleFixture :
    text titleFixture = "a" ∧ text titleFixture ≠ "NrApPrime" := by
  rw [text_eq_runVisitor]
  exact ⟨by decide, by decide⟩

/-- An input/output metadata cell whose nested span carries the keyboard and
screen sentinel text. -/
def inoutCellFixture : HNode :=
  .mk .elementNode "td" [] [.mk .elementNode "span" [] [.mk .textNode "tastatură/ecran" [] []]]

/-- C5 (counterexample): at a cell where the nested span text does not split
on the separator into exactly two parts, the claim requires both Input and
Output to be forced to the dash marker; the code forces only Input, leaving
Output at its previous (empty) value. -/
theorem parser2_outputNotDashed_cex :
    (splitChar '/' (childText inoutCellFixture selectorSpan)).length ≠ 2 ∧
    (parsers 2 inoutCellFixture (newProblem 0)).Input = "-" ∧
    (parsers 2 inoutCellFixture (newProblem 0)).Output = "" ∧
    (parsers 2 inoutCellFixture (newProblem 0)).Output ≠ "-" := by
  have h : childText inoutCellFixture selectorSpan =
      text (.mk .elementNode "span" [] [.mk .textNode "tastatură/ecran" [] []]) := rfl
  refine ⟨?_, ?_, ?_, ?_⟩ <;>
    simp only [parsers, parser2, h, text_eq_runVisitor] <;> decide

/-- C5 (amended): when the nested span text does not split into exactly two
parts, or when the trimmed first part is the keyboard sentinel or the trimmed
second part is the screen sentinel, only the Input field is forced to the
dash marker while Output keeps its previous value; otherwise Input and Output
are set to the two trimmed parts. -/
theorem parser2_inputOnlyDash :
    ∀ (n : HNode) (p : Problem),
      ((splitChar '/' (childText n selectorSpan)).length ≠ 2 →
        parsers 2 n p = { p with Input := "-" }) ∧
      (∀ a b, splitChar '/' (childText n selectorSpan) = [a, b] →
        ((trimSpace a = "tastatură" ∨ trimSpace b = "ecran") →
          parsers 2 n p = { p with Input := "-" }) ∧
        (trimSpace a ≠ "tastatură" → trimSpace b ≠ "ecran" →
          parsers 2 n p = { p with Input := trimSpace a, Output := trimSpace b })) := by
  intro n p
  constructor
  · intro h
    simp only [parsers, parser2]
    split
    · rename_i a b heq
      rw [heq] at h
      simp at h
    · rfl
  · intro a b heq
    constructor
    · intro hor
      simp only [parsers, parser2, heq]
      rw [if_pos hor]
    · intro h1 h2
      simp only [parsers, parser2, heq]
      rw [if_neg (by tauto)]

theorem parser2_inputOnlyDash_witness :
    parsers 2 inoutCellFixture (newProblem 1) = { newProblem 1 with Input := "-" } :=
  (parser2_inputOnlyDash inoutCellFixture (newProblem 1)).1 (by
    have h : childText inoutCellFixture selectorSpan =
        text (.mk .elementNode "span" [] [.mk .textNode "tastatură/ecran" [] []]) := rfl
    rw [h, text_eq_runVisitor]
    decide)

/-- A score cell with no children: its extracted text is the non-empty,
non-numeric tag data of the cell itself. -/
def scoreCellFixture : HNode := .mk .elementNode "td" [] []

/-- C6 (counterexample): at a cell whose normalized text is non-empty but not
a parseable integer, the claim requires the Score to remain absent; the code
stores the zero result of the failed parse as a present value, so Score
becomes present-zero and absence is no longer distinguishable from a parsed
zero. -/
theorem parser8_presentZeroScore_cex :
    dashToEmpty (text scoreCellFixture) = "td" ∧
    (goAtoi "td").2 = false ∧
    (parsers 8 scoreCellFixture (newProblem 0)).Score = some 0 ∧
    (parsers 8 scoreCellFixture (newProblem 0)).Score ≠ none := by
  refine ⟨?_, by decide, ?_, ?_⟩ <;>
    simp only [parsers, parser8, dashToEmpty, text_eq_runVisitor] <;> decide

/-- C6 (amended): if the normalized cell text is empty the Score field keeps
its previous value (absence is preserved); if it is non-empty the Score is
always set to a present value holding whatever the integer parse returned —
zero when the parse fails — so a parse failure yields a present zero rather
than an absent score. -/
theorem parser8_scoreBehavior :
    ∀ (n : HNode) (p : Problem),
      (dashToEmpty (text n) = "" → (parsers 8 n p).Score = p.Score) ∧
      (dashToEmpty (text n) ≠ "" →
        (parsers 8 n p).Score = some (goAtoi (dashToEmpty (text n))).1) := by
  intro n p
  constructor
  · intro h
    simp only [parsers, parser8, h]
    rfl
  · intro h
    simp only [parsers, parser8]
    rw [if_neg h]

theorem parser8_scoreBehavior_witness :
    (parsers 8 scoreCellFixture (newProblem 3)).Score = some 0 := by
  have h := (parser8_scoreBehavior scoreCellFixture (newProblem 3)).2
  have ht : dashToEmpty (text scoreCellFixture) = "td" := by
    simp only [dashToEmpty, text_eq_runVisitor]
    decide
  rw [h (by rw [ht]; decide), ht]
  decide

/-- C7: every string whose normalized (lowercased, diacritic-folded) form is
one of the synonym-table entries parses to that entry's difficulty — which
covers the table entries themselves written with or without diacritics and in
any letter case — every other string parses to Unknown, and the parse is a
total function (there is no error outcome).  Concrete diacritic and case
variants are checked explicitly. -/
theorem ParseProblemDifficulty_synonyms :
    (∀ s d, (s, d) ∈ difficultySynonyms →
      ∀ input, asciiReplace (goToLower input) = s → ParseProblemDifficulty input = d) ∧
    (∀ input, asciiReplace (goToLower input) ∉ difficultySynonyms.map Prod.fst →
      ParseProblemDifficulty input = .Unknown) ∧
    (ParseProblemDifficulty "Ușoară" = .Easy ∧ ParseProblemDifficulty "UȘOR" = .Easy ∧
     ParseProblemDifficulty "EASY" = .Easy ∧ ParseProblemDifficulty "Medie" = .Medium ∧
     ParseProblemDifficulty "MEDIU" = .Medium ∧ ParseProblemDifficulty "DIFICILĂ" = .Difficult ∧
     ParseProblemDifficulty "Dificil" = .Difficult ∧ ParseProblemDifficulty "Concurs" = .Contest ∧
     ParseProblemDifficulty "CONTEST" = .Contest ∧ ParseProblemDifficulty "hard" = .Unknown) := by
  refine ⟨?_, ?_, by decide⟩
  · intro s d hmem input hn
    simp only [difficultySynonyms] at hmem
    fin_cases hmem <;> (simp only [ParseProblemDifficulty]; rw [hn]; decide)
  · intro input h
    simp only [difficultySynonyms, List.map_cons, List.map_nil, List.mem_cons,
      List.not_mem_nil, or_false, not_or] at h
    obtain ⟨h1, h2, h3, h4, h5, h6, h7, h8, h9, h10, h11⟩ := h
    simp only [ParseProblemDifficulty, difficultyEasyString, difficultyMediumString,
      difficultyDifficultString, difficultyContestString]
    rw [if_neg (by tauto), if_neg (by tauto), if_neg (by tauto), if_neg (by tauto)]

theorem ParseProblemDifficulty_synonyms_witness :
    ParseProblemDifficulty "USOR" = .Easy ∧ ParseProblemDifficulty "???" = .Unknown :=
  ⟨ParseProblemDifficulty_synonyms.1 "usor" .Easy (by decide) "USOR" (by decide),
   ParseProblemDifficulty_synonyms.2.1 "???" (by decide)⟩

/-- A visitor closure that counts its visits and returns false on the second
visited node. -/
def stopSecondVisitor : Nat → HNode → Nat × Bool :=
  fun k _ => (k + 1, decide (k + 1 < 2))

theorem runVisitor_stopSecond (n1 n2 : HNode) (rest : List HNode) :
    (runVisitor stopSecondVisitor 0 (n1 :: n2 :: rest)).2 = [n1, n2] := by
  simp [runVisitor, stopSecondVisitor]

/-- C9: the stack-based walker visits exactly the pre-order sequence of the
tree cut off right after the first visit on which the visitor said stop: the
visited sequence equals running the visitor down the pre-order enumeration,
it is always a prefix of that enumeration (so no node is visited twice and
children come after their parent, left to right), a never-stopping visitor
visits the full pre-order enumeration whose length is the tree size, and a
visitor returning false on the second visited node yields exactly two visited
nodes on every tree with at least two nodes. -/
theorem Depth_preorderTraversal :
    ∀ (σ : Type) (v : σ → HNode → σ × Bool) (s : σ) (root : HNode),
      traverse.Depth root v s = runVisitor v s root.preorder ∧
      (∃ k, (traverse.Depth root v s).2 = root.preorder.take k) ∧
      (∀ f : σ → HNode → σ,
        (traverse.Depth root (fun a n => (f a n, true)) s).2 = root.preorder) ∧
      root.preorder = root :: HNode.preorderList root.children ∧
      root.preorder.length = root.size ∧
      (2 ≤ root.size → ((traverse.Depth root stopSecondVisitor 0).2).length = 2) := by
  intro σ v s root
  refine ⟨Depth_eq_runVisitor root v s, ?_, ?_, HNode.preorder_def root,
    HNode.preorder_length root, ?_⟩
  · rw [Depth_eq_runVisitor]
    exact runVisitor_take v s root.preorder
  · intro f
    rw [Depth_eq_runVisitor]
    exact runVisitor_constTrue f s root.preorder
  · intro h2
    have hlen : 2 ≤ root.preorder.length := by
      rw [HNode.preorder_length]
      exact h2
    obtain ⟨n1, n2, rest, hp⟩ : ∃ n1 n2 rest, root.preorder = n1 :: n2 :: rest := by
      cases hr : root.preorder with
      | nil =>
        rw [hr] at hlen
        simp at hlen
      | cons n1 t =>
        cases t with
        | nil =>
          rw [hr] at hlen
          simp at hlen
        | cons n2 rest => exact ⟨n1, n2, rest, rfl⟩
    rw [Depth_eq_runVisitor, hp, runVisitor_stopSecond]
    rfl

/-- A small document with two element children, used to exercise the walker. -/
def walkFixture : HNode :=
  .mk .documentNode "" [] [.mk .elementNode "p" [] [], .mk .elementNode "pre" [] []]

theorem Depth_preorderTraversal_witness :
    ((traverse.Depth walkFixture stopSecondVisitor 0).2).length = 2 :=
  (Depth_preorderTraversal Unit (fun a _ => (a, true)) () walkFixture).2.2.2.2.2 (by decide)

/-- C1: GetProblemTestCases always runs Phase A first; a Phase A hard error
is returned immediately (wrapped) and the result does not depend on the
problem page Phase B would read, so Phase B is never attempted; a non-empty
Phase A result is returned as is; and exactly when Phase A yields the
empty-no-error outcome, the returned value is Phase B's outcome, whether
cases or error. -/
theorem GetProblemTestCases_phaseOrder :
    ∀ (rowSel exampleSel : HNode → Bool) (listing page : Except String HNode)
      (fetch : String → Except String String) (problemID : Int),
      (∀ e, getProblemFullTestCases rowSel listing fetch problemID = .error e →
        GetProblemTestCases rowSel exampleSel listing page fetch problemID =
          .error ("pbinfo: " ++ e) ∧
        ∀ page', GetProblemTestCases rowSel exampleSel listing page fetch problemID =
          GetProblemTestCases rowSel exampleSel listing page' fetch problemID) ∧
      (∀ tcs, getProblemFullTestCases rowSel listing fetch problemID = .ok tcs →
        tcs ≠ [] →
        GetProblemTestCases rowSel exampleSel listing page fetch problemID = .ok tcs) ∧
      (getProblemFullTestCases rowSel listing fetch problemID = .ok [] →
        GetProblemTestCases rowSel exampleSel listing page fetch problemID =
          match getProblemExampleTestCases exampleSel page problemID with
          | .error e => .error ("pbinfo: " ++ e)
          | .ok cs => .ok cs) := by
  intro rowSel exampleSel listing page fetch problemID
  refine ⟨?_, ?_, ?_⟩
  · intro e h
    constructor
    · simp only [GetProblemTestCases, h]
    · intro page'
      simp only [GetProblemTestCases, h]
  · intro tcs h hne
    simp only [GetProblemTestCases, h]
    rw [if_pos (by simpa using hne)]
  · intro h
    simp only [GetProblemTestCases, h, List.length_nil]
    rw [if_neg (by simp)]

theorem GetProblemTestCases_phaseOrder_witness :
    GetProblemTestCases (fun _ => false) (fun _ => false) (.error "boom") (.error "page")
      (fun _ => .error "net") 1 = .error "pbinfo: boom" :=
  ((GetProblemTestCases_phaseOrder (fun _ => false) (fun _ => false) (.error "boom")
      (.error "page") (fun _ => .error "net") 1).1 "boom" rfl).1

/-- C2: every test case in a successful result of GetProblemTestCases has
both its input and its expected-output content present; and whenever the
assembled Phase A rows come back from the downloads with any row missing a
side, Phase A is reported as empty-no-error and the overall result is Phase
B's outcome instead of the partial list. -/
theorem GetProblemTestCases_bothSidesPopulated :
    ∀ (rowSel exampleSel : HNode → Bool) (listing page : Except String HNode)
      (fetch : String → Except String String) (problemID : Int),
      (∀ result,
        GetProblemTestCases rowSel exampleSel listing page fetch problemID = .ok result →
        ∀ t ∈ result, t.Input ≠ none ∧ t.Output ≠ none) ∧
      (∀ root filled, listing = .ok root →
        (buildRows (matchAll rowSel root)).1 ≠ [] →
        applyFetches fetch (buildRows (matchAll rowSel root)).1
          (buildRows (matchAll rowSel root)).2 = .ok filled →
        (∃ t ∈ filled, t.Input = none ∨ t.Output = none) →
        getProblemFullTestCases rowSel listing fetch problemID = .ok [] ∧
        GetProblemTestCases rowSel exampleSel listing page fetch problemID =
          match getProblemExampleTestCases exampleSel page problemID with
          | .error e => .error ("pbinfo: " ++ e)
          | .ok cs => .ok cs) := by
  intro rowSel exampleSel listing page fetch problemID
  constructor
  · intro result h t ht
    unfold GetProblemTestCases at h
    cases hfull : getProblemFullTestCases rowSel listing fetch problemID with
    | error e =>
      rw [hfull] at h
      exact absurd h (by simp)
    | ok cs =>
      rw [hfull] at h
      simp only at h
      split at h
      · rw [Except.ok.injEq] at h
        rw [← h] at ht
        rcases getProblemFullTestCases_ok_sound rowSel listing fetch problemID cs hfull with
          hnil | hcomp
        · rename_i hlen
          rw [hnil] at hlen
          simp at hlen
        · exact hcomp t ht
      · cases hex : getProblemExampleTestCases exampleSel page problemID with
        | error e =>
          rw [hex] at h
          exact absurd h (by simp)
        | ok l =>
          rw [hex] at h
          rw [Except.ok.injEq] at h
          rw [← h] at ht
          exact getProblemExampleTestCases_complete exampleSel page problemID l hex t ht
  · intro root filled hroot hne happ hex
    have hfull : getProblemFullTestCases rowSel listing fetch problemID = .ok [] := by
      rw [hroot]
      unfold getProblemFullTestCases
      simp only
      rw [if_neg (by simpa [List.length_eq_zero] using hne), happ]
      simp only
      rw [if_pos ?_]
      rw [List.any_eq_true]
      obtain ⟨t, ht, hside⟩ := hex
      refine ⟨t, ht, ?_⟩
      simp only [Bool.or_eq_true, Option.isNone_iff_eq_none]
      exact hside
    refine ⟨hfull, ?_⟩
    simp only [GetProblemTestCases, hfull, List.length_nil]
    rw [if_neg (by simp)]

/-- A listing with one row that has no cells at all: Phase A assembles one
test case with both sides missing and no queued downloads. -/
def incompleteListingFixture : HNode :=
  .mk .elementNode "table" [] [.mk .elementNode "tr" [] []]

theorem GetProblemTestCases_bothSidesPopulated_witness :
    getProblemFullTestCases (fun n => decide (n.data = "tr")) (.ok incompleteListingFixture)
      (fun _ => .error "net") 7 = .ok [] :=
  ((GetProblemTestCases_bothSidesPopulated (fun n => decide (n.data = "tr")) (fun _ => false)
      (.ok incompleteListingFixture) (.ok (.mk .elementNode "html" [] []))
      (fun _ => .error "net") 7).2 incompleteListingFixture [emptyTestCase] rfl
      (by decide) rfl (by decide)).1

/-- C3: FindProblemByID fails hard, returning no record, whenever the
metadata table is absent, the cell count is below 8 or above 9, or the title
element is absent; and every successful result carries the caller-supplied
identifier unchanged and is exactly the fold of the positional parser table
over the matched cells (cell i handled by entry i), with the name taken from
the title element. -/
theorem FindProblemByID_structuralAnchors :
    ∀ (tableSel columnSel titleSel : HNode → Bool) (root : HNode) (id : Int),
      (matchFirst tableSel root = none →
        ∃ e, FindProblemByID tableSel columnSel titleSel (.ok root) id = .error e) ∧
      (∀ table, matchFirst tableSel root = some table →
        ((matchAll columnSel table).length < 8 ∨ (matchAll columnSel table).length > 9) →
        ∃ e, FindProblemByID tableSel columnSel titleSel (.ok root) id = .error e) ∧
      (∀ table, matchFirst tableSel root = some table →
        ¬((matchAll columnSel table).length < 8 ∨ (matchAll columnSel table).length > 9) →
        matchFirst titleSel root = none →
        ∃ e, FindProblemByID tableSel columnSel titleSel (.ok root) id = .error e) ∧
      (∀ p, FindProblemByID tableSel columnSel titleSel (.ok root) id = .ok p →
        p.ID = id ∧
        ∃ table title, matchFirst tableSel root = some table ∧
          matchFirst titleSel root = some title ∧
          8 ≤ (matchAll columnSel table).length ∧ (matchAll columnSel table).length ≤ 9 ∧
          p = { applyParsers (matchAll columnSel table) (newProblem id) with
                  Name := text title }) := by
  intro tableSel columnSel titleSel root id
  refine ⟨?_, ?_, ?_, ?_⟩
  · intro h
    simp only [FindProblemByID, h]
    exact ⟨_, rfl⟩
  · intro table h hcount
    simp only [FindProblemByID, h]
    rw [if_pos hcount]
    exact ⟨_, rfl⟩
  · intro table h hcount htitle
    simp only [FindProblemByID, h]
    rw [if_neg hcount]
    simp only [htitle]
    exact ⟨_, rfl⟩
  · intro p h
    simp only [FindProblemByID] at h
    split at h
    · exact absurd h (by simp)
    · rename_i table htab
      split at h
      · exact absurd h (by simp)
      · rename_i hcount
        split at h
        · exact absurd h (by simp)
        · rename_i title htitle
          rw [Except.ok.injEq] at h
          subst h
          refine ⟨?_, table, title, htab, htitle, by omega, by omega, rfl⟩
          simp [applyParsers_ID, newProblem]

/-- A page with no metadata table at all. -/
def bareRootFixture : HNode := .mk .elementNode "html" [] []

theorem FindProblemByID_structuralAnchors_witness :
    ∃ e, FindProblemByID (fun n => decide (n.data = "table")) (fun _ => true)
      (fun _ => true) (.ok bareRootFixture) 5 = .error e :=
  (FindProblemByID_structuralAnchors (fun n => decide (n.data = "table")) (fun _ => true)
    (fun _ => true) bareRootFixture 5).1 rfl
